import Mathlib

/-!
Verification development for the contributor-reward issuance pipeline
(`send_key.py`): the email extraction/validation search, the credential
provisioning call, the delivery/confirmation sequencing, and the process
exit behaviour.  Text is modelled as `List Char`; the three concrete
regular expressions of `extract_email_from_text` are embedded with
Python `re.search` semantics (leftmost start position, greedy
quantifiers with backtracking) specialised to these patterns.
-/

/-- ASCII upper-case letter, as in the character class `A-Z`. -/
def isUpperAZ (c : Char) : Bool := 'A' ≤ c && c ≤ 'Z'

/-- ASCII lower-case letter, as in the character class `a-z`. -/
def isLowerAZ (c : Char) : Bool := 'a' ≤ c && c ≤ 'z'

/-- ASCII letter, the class `[A-Za-z]` (the TLD class of the patterns). -/
def isAlphaChar (c : Char) : Bool := isUpperAZ c || isLowerAZ c

/-- ASCII digit, the class `[0-9]`. -/
def isDigitChar (c : Char) : Bool := '0' ≤ c && c ≤ '9'

/-- The local-part class `[A-Za-z0-9._%+-]` of the e-mail patterns. -/
def isLocalChar (c : Char) : Bool :=
  isAlphaChar c || isDigitChar c || c == '.' || c == '_' || c == '%' || c == '+' || c == '-'

/-- The domain class `[A-Za-z0-9.-]` of the e-mail patterns. -/
def isDomChar (c : Char) : Bool :=
  isAlphaChar c || isDigitChar c || c == '.' || c == '-'

/-- The Python word class `\w` restricted to ASCII, used by `\b`. -/
def isWordChar (c : Char) : Bool := isAlphaChar c || isDigitChar c || c == '_'

/-- The Python whitespace class `\s` restricted to ASCII, used by `\s*`. -/
def isWsChar (c : Char) : Bool :=
  c == ' ' || c == '\t' || c == '\n' || c == '\r' || c == '\x0b' || c == '\x0c'

/-- Strip an exact literal from the front of a text, as a regex literal does. -/
def stripLit : List Char → List Char → Option (List Char)
  | [], s => some s
  | _ :: _, [] => none
  | p :: ps, c :: cs => if c == p then stripLit ps cs else none

/-- Indexing helper: the `n`-th character of a text, if present. -/
def nthCh : List Char → Nat → Option Char
  | [], _ => none
  | c :: _, 0 => some c
  | _ :: t, n + 1 => nthCh t n

/-- Success test for the TLD part `[A-Za-z]{2,}`: the greedy run `tld` must
have length at least two and, when the pattern ends with `\b`, the character
following the run must not be a word character. -/
def tldOk (checkTrail : Bool) (tld rem : List Char) : Bool :=
  decide (2 ≤ tld.length) &&
    (!checkTrail || (match rem with | [] => true | c :: _ => !isWordChar c))

/-- Backtracking over the greedy domain run `dom` for the tail
`\.[A-Za-z]{2,}` of the address pattern: split positions are tried from the
fuel downwards (Python tries the longest domain prefix first); a split at
position `p` succeeds when `dom` has a `'.'` there and the following greedy
letter run passes `tldOk`.  Returns the matched domain text (from the split
onward, dot and TLD included) and the text remaining after the match. -/
def domSplit (checkTrail : Bool) (dom rest3 : List Char) : Nat → Option (List Char × List Char)
  | 0 => none
  | Nat.succ p =>
    match nthCh dom (Nat.succ p) with
    | some c =>
      if c == '.' then
        let after := dom.drop (Nat.succ (Nat.succ p))
        let tld := after.takeWhile isAlphaChar
        let rem := after.drop tld.length ++ rest3
        if tldOk checkTrail tld rem then
          some (dom.take (Nat.succ p) ++ '.' :: tld, rem)
        else domSplit checkTrail dom rest3 p
      else domSplit checkTrail dom rest3 p
    | none => domSplit checkTrail dom rest3 p

/-- Domain-and-TLD part of the address pattern after the `'@'`: the greedy
domain run of `r2` is split by `domSplit`; on success the full match
(`loc`, `'@'`, domain, dot, TLD) and the remainder are returned. -/
def matchAddrTail (checkTrail : Bool) (loc r2 : List Char) : Option (List Char × List Char) :=
  match domSplit checkTrail (r2.takeWhile isDomChar) (r2.dropWhile isDomChar)
      (r2.takeWhile isDomChar).length with
  | some (dtail, rem) => some (loc ++ '@' :: dtail, rem)
  | none => none

/-- Anchored match of the shared address pattern
`[A-Za-z0-9._%+-]+@[A-Za-z0-9.-]+\.[A-Za-z]{2,}` at the start of `s`,
with the Python greedy/backtracking semantics (the `+`-runs are maximal; only
the domain run effectively backtracks, handled by `domSplit`).  When
`checkTrail` is set the trailing `\b` of pattern 3 is enforced.  Returns the
matched text and the remainder of `s`. -/
def matchAddr (checkTrail : Bool) (s : List Char) : Option (List Char × List Char) :=
  match s.takeWhile isLocalChar, s.dropWhile isLocalChar with
  | [], _ => none
  | _, [] => none
  | loc, c :: r2 => if c == '@' then matchAddrTail checkTrail loc r2 else none

/-- The literal `\*\*Email\*\*:` of pattern 1. -/
def pat1Lit : List Char := ['*', '*', 'E', 'm', 'a', 'i', 'l', '*', '*', ':']

/-- The literal `mail:` that follows the class `[Ee]` in pattern 2. -/
def mailLit : List Char := ['m', 'a', 'i', 'l', ':']

/-- Greedy `\s*`: drop the maximal whitespace run. -/
def wsDrop (s : List Char) : List Char := s.dropWhile isWsChar

/-- Anchored attempt of pattern 1, `\*\*Email\*\*:\s*(addr)`, at the start
of `s`; yields the capture group. -/
def anch1 (s : List Char) : Option (List Char) :=
  match stripLit pat1Lit s with
  | some r => (matchAddr false (wsDrop r)).map Prod.fst
  | none => none

/-- Anchored attempt of pattern 2, `[Ee]mail:\s*(addr)`, at the start of
`s`; yields the capture group. -/
def anch2 (s : List Char) : Option (List Char) :=
  match s with
  | [] => none
  | c :: r =>
    if c == 'E' || c == 'e' then
      match stripLit mailLit r with
      | some r2 => (matchAddr false (wsDrop r2)).map Prod.fst
      | none => none
    else none

/-- The Python `\b` boundary test at a position whose preceding character is `prev` (none at
the start of the text) and whose current character is `c`. -/
def boundaryB (prev : Option Char) (c : Char) : Bool :=
  (match prev with | some p => isWordChar p | none => false) != isWordChar c

/-- Anchored attempt of pattern 3, `\b(addr)\b`, at the start of `s`, given
the character preceding `s` in the full text; yields the capture group. -/
def anch3 (prev : Option Char) (s : List Char) : Option (List Char) :=
  match s with
  | [] => none
  | c :: _ => if boundaryB prev c then (matchAddr true s).map Prod.fst else none

/-- Scan of `re.search` for pattern 1: try every start position left to right. -/
def search1 : List Char → Option (List Char)
  | [] => none
  | c :: t =>
    match anch1 (c :: t) with
    | some g => some g
    | none => search1 t

/-- Scan of `re.search` for pattern 2: try every start position left to right. -/
def search2 : List Char → Option (List Char)
  | [] => none
  | c :: t =>
    match anch2 (c :: t) with
    | some g => some g
    | none => search2 t

/-- Scanning worker for pattern 3, carrying the previous character for `\b`. -/
def search3Go (prev : Option Char) : List Char → Option (List Char)
  | [] => none
  | c :: t =>
    match anch3 prev (c :: t) with
    | some g => some g
    | none => search3Go (some c) t

/-- Scan of `re.search` for pattern 3. -/
def search3 (s : List Char) : Option (List Char) := search3Go none s

/-- Embedding of `extract_email_from_text`: the three patterns are attempted over the
whole text in fixed priority order; the first pattern that matches anywhere
wins and its capture group is returned. -/
def extract_email_from_text (text : List Char) : Option (List Char) :=
  match search1 text with
  | some e => some e
  | none =>
    match search2 text with
    | some e => some e
    | none => search3 text

/-!
Pipeline embedding.  External collaborators (GitHub REST, the
`email_validator` library, the provisioning endpoint, SendGrid) are
modelled by a `World` of outcomes fixed per run; `runMain` replays
`main` against a `World`, producing the list of external-call events in
order and the process outcome.  An uncaught Python exception is the
`Outcome.uncaught` case (process status 1); `exit(n)` and a normal
return of `main` are `Outcome.exit`.
-/

/-- Embedding of `validate_email_address`: wraps the `email_validator` library call,
whose outcome for the candidate is given as `lib` (`ok` carries the
normalized address, `error` the `EmailNotValidError` message).  Returns the
normalized address or `none`, together with the log lines it prints. -/
def validate_email_address (lib : Except (List Char) (List Char)) :
    Option (List Char) × List (List Char) :=
  match lib with
  | .ok v => (some v, [("✅ Email validation passed: ".toList ++ v)])
  | .error m => (none, [("❌ Email validation failed: ".toList ++ m)])

/-- Embedding of `fetch_pr_comments`: a transport failure is caught inside the function
and resolved locally to an empty comment list. -/
def fetch_pr_comments : Except (List Char) (List (Option (List Char))) → List (Option (List Char))
  | .ok cs => cs
  | .error _ => []

/-- The comment loop of `extract_email`: for each comment body
(`comment.get("body", "")`), extract a candidate and validate it; the first
validated address wins, a failed validation moves to the next comment. -/
def scanComments (vf : List Char → Option (List Char)) :
    List (Option (List Char)) → Option (List Char)
  | [] => none
  | c :: rest =>
    match extract_email_from_text (c.getD []) with
    | some cand =>
      match vf cand with
      | some v => some v
      | none => scanComments vf rest
    | none => scanComments vf rest

/-- External-call events of a run, in order of occurrence. -/
inductive Ev where
  | fetchPR
  | fetchComments
  | provisionCall
  | sendEmailCall (toAddr : List Char) (html : List Char)
  | postCommentCall (body : List Char)
deriving DecidableEq

/-- Embedding of `extract_email`: candidate from the PR body first (validated at most
once); only if that fails are the comments fetched and scanned.  Returns
the external-call events it performs and the validated address, `none`
standing for the `exit(0)` taken at the end of the function. -/
def extract_email (vf : List Char → Option (List Char)) (pr_body : List Char)
    (commentsResp : Except (List Char) (List (Option (List Char)))) :
    List Ev × Option (List Char) :=
  let bodyVal :=
    match extract_email_from_text pr_body with
    | some cand => vf cand
    | none => none
  match bodyVal with
  | some v => ([], some v)
  | none => ([Ev.fetchComments], scanComments vf (fetch_pr_comments commentsResp))

/-- Embedding of `provision_api_key`: a transport error or non-success status
(`raise_for_status`) re-raises; on success the `key` field is read with
`[]`, a `KeyError` when absent.  `ok none` models a success response body
lacking the field. -/
def provision_api_key : Except (List Char) (Option (List Char)) → Except (List Char) (List Char)
  | .error e => .error e
  | .ok (some k) => .ok k
  | .ok none => .error "KeyError: key".toList

/-- Outcome of the SendGrid interaction in `send_email`. -/
inductive SendOutcome where
  | ok (status : Nat)
  | httpError (status : Nat) (body : List Char)
  | valueError (msg : List Char)
  | otherError (msg : List Char)
deriving DecidableEq

/-- The boolean `send_email` returns: `True` exactly when `sg.send`
returned a status code below 300; every `HTTPError`, `ValueError` and
unexpected exception is caught and yields `False`. -/
def send_email_result : SendOutcome → Bool
  | .ok s => if 300 ≤ s then false else true
  | .httpError _ _ => false
  | .valueError _ => false
  | .otherError _ => false

/-- The fixed HTML template of `send_email` with the credential spliced in. -/
def html_content (api_key : List Char) : List Char :=
  ("\n            <p>Thanks for contributing to the Goose Recipe Cookbook!</p>\n            <p>Here\x27s your <strong>$10 OpenRouter API key</strong>:</p>\n            <p><code>".toList)
    ++ api_key ++
  ("</code></p>\n            <p>Happy vibe-coding!<br>– The Goose Team 🪿</p>\n        ".toList)

/-- The fixed confirmation-comment body of `comment_on_pr` with the
address spliced in. -/
def comment_body (email : List Char) : List Char :=
  ("✅ $10 OpenRouter API key sent to \x60".toList)
    ++ email ++
  ("\x60. Thanks for your contribution to the Goose Cookbook!".toList)

/-- Process outcome: `exit c` for `exit(c)` or a normal return of `main`
(status 0); `uncaught m` for an uncaught exception (status 1). -/
inductive Outcome where
  | exit (code : Nat)
  | uncaught (msg : List Char)
deriving DecidableEq

/-- The process environment: presence and value of the four variables
`main` reads. -/
structure Environ where
  github_token : Option (List Char)
  github_api_url : Option (List Char)
  provisioning_api_key : Option (List Char)
  email_api_key : Option (List Char)

/-- The fields of the fetched pull-request JSON that `main` consumes.
`none` models an absent key. -/
structure PrData where
  body : Option (List Char)
  number : Option Nat
  html_url : Option (List Char)
  base_repo : Option (List Char)
  repository : Option (List Char)

/-- Fixed per-run behaviour of the external collaborators. -/
structure World where
  prResp : Except (List Char) PrData
  commentsResp : Except (List Char) (List (Option (List Char)))
  provResp : Except (List Char) (Option (List Char))
  sendResp : SendOutcome
  commentResp : Except (List Char) Unit
  vfRaw : List Char → Except (List Char) (List Char)

/-- The validator as `extract_email` sees it: `validate_email_address`
applied to the library behaviour of the world. -/
def wVf (w : World) : List Char → Option (List Char) :=
  fun c => (validate_email_address (w.vfRaw c)).1

/-- The digit-string-to-integer conversion `int(...)` performs on the
capture of `/pull/(\d+)`. -/
def digitsToNat (ds : List Char) : Nat :=
  ds.foldl (fun n c => n * 10 + (c.toNat - 48)) 0

/-- The literal `/pull/` of the fallback pattern in `main`. -/
def pullLit : List Char := ['/', 'p', 'u', 'l', 'l', '/']

/-- Anchored attempt of `/pull/(\d+)` at the start of `s`. -/
def anchPull (s : List Char) : Option Nat :=
  match stripLit pullLit s with
  | some r =>
    let ds := r.takeWhile isDigitChar
    if ds.isEmpty then none else some (digitsToNat ds)
  | none => none

/-- Scan of `re.search(r"/pull/(\d+)", url)` over the `html_url` fallback. -/
def pullNumSearch : List Char → Option Nat
  | [] => none
  | c :: t =>
    match anchPull (c :: t) with
    | some n => some n
    | none => pullNumSearch t

/-- PR-number resolution of `main`: `pr_data.get("number")`, falling back
(when the number is absent or `0`, both falsy in Python) to the
`/pull/(\d+)` search over `html_url`; `none` means `exit(1)`. -/
def resolve_pr_number (pr : PrData) : Option Nat :=
  let fb :=
    match pr.html_url with
    | some u => pullNumSearch u
    | none => none
  match pr.number with
  | some n => if n == 0 then fb else some n
  | none => fb

/-- Repository-name resolution of `main`: `base.repo.full_name`, else
`repository.full_name`; `none` means `exit(1)`. -/
def resolve_repo (pr : PrData) : Option (List Char) :=
  match pr.base_repo with
  | some r => some r
  | none => pr.repository

/-- The `try` block of `main` after a validated address is in hand:
provision (any failure is caught at the top level, printed, and `main`
returns normally, status 0), send the credential by email, and post the
confirmation comment only when `send_email` returned `True`.  A failure
of the comment post itself raises but is equally caught at the top level. -/
def runProvisionOn (w : World) (email : List Char) : List Ev × Outcome :=
  match provision_api_key w.provResp with
  | .error _ => ([Ev.provisionCall], Outcome.exit 0)
  | .ok key =>
    if send_email_result w.sendResp then
      match w.commentResp with
      | .ok _ =>
        ([Ev.provisionCall, Ev.sendEmailCall email (html_content key),
          Ev.postCommentCall (comment_body email)], Outcome.exit 0)
      | .error _ =>
        ([Ev.provisionCall, Ev.sendEmailCall email (html_content key),
          Ev.postCommentCall (comment_body email)], Outcome.exit 0)
    else
      ([Ev.provisionCall, Ev.sendEmailCall email (html_content key)], Outcome.exit 0)

/-- Name carried by the first `KeyError` of the `os.environ` subscript reads. -/
def keyGT : List Char := "GITHUB_TOKEN".toList

/-- Name of the PR-URL environment variable. -/
def keyURL : List Char := "GITHUB_API_URL".toList

/-- Name of the provisioning-credential environment variable. -/
def keyPROV : List Char := "PROVISIONING_API_KEY".toList

/-- Name of the email-credential environment variable. -/
def keyEMAIL : List Char := "EMAIL_API_KEY".toList

/-- Embedding of `main`, replayed against an environment and a world: environment
reads first (a `KeyError` on the first missing variable escapes `main`
uncaught), then the PR fetch (`fetch_pr_body` re-raises transport
failures), PR-number and repository resolution (`exit(1)` on failure),
the email search (`exit(0)` when it is exhausted), and the
provision/send/confirm block. -/
def runMain (env : Environ) (w : World) : List Ev × Outcome :=
  match env.github_token with
  | none => ([], Outcome.uncaught keyGT)
  | some _ =>
  match env.github_api_url with
  | none => ([], Outcome.uncaught keyURL)
  | some _ =>
  match env.provisioning_api_key with
  | none => ([], Outcome.uncaught keyPROV)
  | some _ =>
  match env.email_api_key with
  | none => ([], Outcome.uncaught keyEMAIL)
  | some _ =>
  match w.prResp with
  | .error e => ([Ev.fetchPR], Outcome.uncaught e)
  | .ok pr =>
  match resolve_pr_number pr with
  | none => ([Ev.fetchPR], Outcome.exit 1)
  | some _ =>
  match resolve_repo pr with
  | none => ([Ev.fetchPR], Outcome.exit 1)
  | some _ =>
    let ex := extract_email (wVf w) (pr.body.getD []) w.commentsResp
    match ex.2 with
    | none => (Ev.fetchPR :: ex.1, Outcome.exit 0)
    | some email =>
      let tail := runProvisionOn w email
      (Ev.fetchPR :: ex.1 ++ tail.1, tail.2)

/-- First missing environment variable in the order `main` reads them. -/
def firstMissing (env : Environ) : Option (List Char) :=
  match env.github_token with
  | none => some keyGT
  | some _ =>
  match env.github_api_url with
  | none => some keyURL
  | some _ =>
  match env.provisioning_api_key with
  | none => some keyPROV
  | some _ =>
  match env.email_api_key with
  | none => some keyEMAIL
  | some _ => none

/-- Discriminator for provisioning events. -/
def isProvEv : Ev → Bool
  | Ev.provisionCall => true
  | _ => false

/-- Discriminator for email-send events. -/
def isSendEv : Ev → Bool
  | Ev.sendEmailCall _ _ => true
  | _ => false

/-- Discriminator for confirmation-comment events. -/
def isPostEv : Ev → Bool
  | Ev.postCommentCall _ => true
  | _ => false

/-- Discriminator for comment-fetch events. -/
def isFetchCommentsEv : Ev → Bool
  | Ev.fetchComments => true
  | _ => false

/-- Discriminator for PR-fetch events. -/
def isFetchPREv : Ev → Bool
  | Ev.fetchPR => true
  | _ => false

/-- Bodies of the confirmation comments posted during a run. -/
def postBodies (l : List Ev) : List (List Char) :=
  l.filterMap fun e =>
    match e with
    | Ev.postCommentCall b => some b
    | _ => none

/-!
Concrete fixtures used by counterexamples and witnesses.
-/

/-- An environment with all four variables present. -/
def envOk : Environ :=
  { github_token := some "t0".toList
    github_api_url := some "https://api.github.com/repos/o/r/pulls/5".toList
    provisioning_api_key := some "p0".toList
    email_api_key := some "s0".toList }

/-- An environment missing both `GITHUB_TOKEN` and `PROVISIONING_API_KEY`. -/
def envMiss : Environ :=
  { github_token := none
    github_api_url := some "u0".toList
    provisioning_api_key := none
    email_api_key := some "s0".toList }

/-- A pull-request snapshot whose body carries a labeled address. -/
def prDev : PrData :=
  { body := some "Thanks! **Email**: dev@example.com".toList
    number := some 5
    html_url := none
    base_repo := some "o/r".toList
    repository := none }

/-- A pull-request snapshot without any address anywhere. -/
def prNoMail : PrData :=
  { body := some "no address here".toList
    number := some 5
    html_url := none
    base_repo := some "o/r".toList
    repository := none }

/-- A library behaviour that accepts every candidate unchanged. -/
def vfAccept : List Char → Except (List Char) (List Char) := fun c => Except.ok c

/-- A baseline world: happy path end to end. -/
def wHappy : World :=
  { prResp := Except.ok prDev
    commentsResp := Except.ok []
    provResp := Except.ok (some "sk-test-123".toList)
    sendResp := SendOutcome.ok 202
    commentResp := Except.ok ()
    vfRaw := vfAccept }

/-- World for C1: no resolvable address in body or comments. -/
def wNoEmail : World :=
  { wHappy with prResp := Except.ok prNoMail }

/-- World for C2: provisioning returns HTTP success without a `key` field. -/
def wNoKey : World :=
  { wHappy with provResp := Except.ok none }

/-- World for C3: SendGrid rejects with HTTP 429. -/
def wRate : World :=
  { wHappy with sendResp := SendOutcome.httpError 429 "rate limit".toList }

/-- World for C6: the comment fetch fails at transport level while the
body has no address. -/
def wCfail : World :=
  { wHappy with prResp := Except.ok prNoMail
                commentsResp := Except.error "boom".toList }

/-!
Structural lemmas about `runMain`.
-/

/-- Events of the email-search stage for world `w` and snapshot `pr`. -/
def exTrace (w : World) (pr : PrData) : List Ev :=
  (extract_email (wVf w) (pr.body.getD []) w.commentsResp).1

/-- Result of the email-search stage for world `w` and snapshot `pr`. -/
def exRes (w : World) (pr : PrData) : Option (List Char) :=
  (extract_email (wVf w) (pr.body.getD []) w.commentsResp).2

/-- The email-search stage fetches the comments exactly when the body did
not yield a validated address, and performs no other external call. -/
theorem extract_email_trace (vf : List Char → Option (List Char)) (b : List Char)
    (cr : Except (List Char) (List (Option (List Char)))) :
    (extract_email vf b cr).1 = [] ∨ (extract_email vf b cr).1 = [Ev.fetchComments] := by
  unfold extract_email
  cases h : (match extract_email_from_text b with
             | some cand => vf cand
             | none => none : Option (List Char)) with
  | none => right; rfl
  | some v => left; rfl

/-- Complete case analysis of a run: which stage it stops in, the events
it has emitted, and the process outcome. -/
theorem runMain_shape (env : Environ) (w : World) :
    (∃ n, firstMissing env = some n ∧ runMain env w = ([], Outcome.uncaught n))
    ∨ (firstMissing env = none ∧
      ((∃ e, w.prResp = Except.error e ∧ runMain env w = ([Ev.fetchPR], Outcome.uncaught e))
      ∨ (∃ pr, w.prResp = Except.ok pr ∧
        (((resolve_pr_number pr = none
            ∨ ∃ nn, resolve_pr_number pr = some nn ∧ resolve_repo pr = none)
            ∧ runMain env w = ([Ev.fetchPR], Outcome.exit 1))
        ∨ (∃ nn rr, resolve_pr_number pr = some nn ∧ resolve_repo pr = some rr ∧
          ((exRes w pr = none
              ∧ runMain env w = (Ev.fetchPR :: exTrace w pr, Outcome.exit 0))
          ∨ (∃ email, exRes w pr = some email ∧
            ((∃ msg, provision_api_key w.provResp = Except.error msg
                ∧ runMain env w =
                    (Ev.fetchPR :: exTrace w pr ++ [Ev.provisionCall], Outcome.exit 0))
            ∨ (∃ k, provision_api_key w.provResp = Except.ok k ∧
              ((send_email_result w.sendResp = false
                  ∧ runMain env w =
                      (Ev.fetchPR :: exTrace w pr ++
                        [Ev.provisionCall, Ev.sendEmailCall email (html_content k)],
                       Outcome.exit 0))
              ∨ (send_email_result w.sendResp = true
                  ∧ runMain env w =
                      (Ev.fetchPR :: exTrace w pr ++
                        [Ev.provisionCall, Ev.sendEmailCall email (html_content k),
                         Ev.postCommentCall (comment_body email)],
                       Outcome.exit 0)))))))))))) := by
  cases hgt : env.github_token with
  | none =>
    exact Or.inl ⟨keyGT, by simp [firstMissing, hgt], by simp [runMain, hgt]⟩
  | some gt =>
  cases hurl : env.github_api_url with
  | none =>
    exact Or.inl ⟨keyURL, by simp [firstMissing, hgt, hurl], by simp [runMain, hgt, hurl]⟩
  | some url =>
  cases hpk : env.provisioning_api_key with
  | none =>
    exact Or.inl ⟨keyPROV, by simp [firstMissing, hgt, hurl, hpk],
      by simp [runMain, hgt, hurl, hpk]⟩
  | some pk =>
  cases hek : env.email_api_key with
  | none =>
    exact Or.inl ⟨keyEMAIL, by simp [firstMissing, hgt, hurl, hpk, hek],
      by simp [runMain, hgt, hurl, hpk, hek]⟩
  | some ek =>
  refine Or.inr ⟨by simp [firstMissing, hgt, hurl, hpk, hek], ?_⟩
  cases hpr : w.prResp with
  | error e =>
    exact Or.inl ⟨e, rfl, by simp [runMain, hgt, hurl, hpk, hek, hpr]⟩
  | ok pr =>
  refine Or.inr ⟨pr, rfl, ?_⟩
  cases hnum : resolve_pr_number pr with
  | none =>
    exact Or.inl ⟨Or.inl rfl, by simp [runMain, hgt, hurl, hpk, hek, hpr, hnum]⟩
  | some nn =>
  cases hrepo : resolve_repo pr with
  | none =>
    exact Or.inl ⟨Or.inr ⟨nn, rfl, rfl⟩, by simp [runMain, hgt, hurl, hpk, hek, hpr, hnum, hrepo]⟩
  | some rr =>
  refine Or.inr ⟨nn, rr, rfl, rfl, ?_⟩
  cases hex : exRes w pr with
  | none =>
    exact Or.inl ⟨rfl,
      by simp [runMain, hgt, hurl, hpk, hek, hpr, hnum, hrepo, exRes, exTrace] at hex ⊢
         simp [hex]⟩
  | some email =>
  refine Or.inr ⟨email, rfl, ?_⟩
  cases hprov : provision_api_key w.provResp with
  | error msg =>
    refine Or.inl ⟨msg, rfl, ?_⟩
    simp only [runMain, hgt, hurl, hpk, hek, hpr, hnum, hrepo]
    simp only [exRes] at hex
    simp only [hex, runProvisionOn, hprov]
    rfl
  | ok k =>
  refine Or.inr ⟨k, rfl, ?_⟩
  cases hsend : send_email_result w.sendResp with
  | false =>
    refine Or.inl ⟨rfl, ?_⟩
    simp only [runMain, hgt, hurl, hpk, hek, hpr, hnum, hrepo]
    simp only [exRes] at hex
    simp only [hex, runProvisionOn, hprov, hsend]
    rfl
  | true =>
    refine Or.inr ⟨rfl, ?_⟩
    simp only [runMain, hgt, hurl, hpk, hek, hpr, hnum, hrepo]
    simp only [exRes] at hex
    simp only [hex, runProvisionOn, hprov, hsend]
    cases hc : w.commentResp with
    | ok u => rfl
    | error e2 => rfl

/-- Specialisation of `extract_email_trace` to `exTrace`. -/
theorem exTrace_cases (w : World) (pr : PrData) :
    exTrace w pr = [] ∨ exTrace w pr = [Ev.fetchComments] :=
  extract_email_trace _ _ _

/-- When all four variables are present, nothing is missing. -/
theorem firstMissing_none (env : Environ)
    (h1 : env.github_token.isSome = true) (h2 : env.github_api_url.isSome = true)
    (h3 : env.provisioning_api_key.isSome = true) (h4 : env.email_api_key.isSome = true) :
    firstMissing env = none := by
  obtain ⟨gt, hgt⟩ := Option.isSome_iff_exists.mp h1
  obtain ⟨url, hurl⟩ := Option.isSome_iff_exists.mp h2
  obtain ⟨pk, hpk⟩ := Option.isSome_iff_exists.mp h3
  obtain ⟨ek, hek⟩ := Option.isSome_iff_exists.mp h4
  simp [firstMissing, hgt, hurl, hpk, hek]

/-- Narrowing of `runMain_shape`: under a complete environment, a fetched
snapshot and successful number/repo resolution, the run reaches the email
search; the disjunction that remains starts there. -/
theorem runMain_shape_reached (env : Environ) (w : World) (pr : PrData)
    (nn : Nat) (rr : List Char)
    (h1 : env.github_token.isSome = true) (h2 : env.github_api_url.isSome = true)
    (h3 : env.provisioning_api_key.isSome = true) (h4 : env.email_api_key.isSome = true)
    (h5 : w.prResp = Except.ok pr)
    (h6 : resolve_pr_number pr = some nn) (h7 : resolve_repo pr = some rr) :
    (exRes w pr = none ∧ runMain env w = (Ev.fetchPR :: exTrace w pr, Outcome.exit 0))
    ∨ (∃ email, exRes w pr = some email ∧
      ((∃ msg, provision_api_key w.provResp = Except.error msg
          ∧ runMain env w = (Ev.fetchPR :: exTrace w pr ++ [Ev.provisionCall], Outcome.exit 0))
      ∨ (∃ k, provision_api_key w.provResp = Except.ok k ∧
        ((send_email_result w.sendResp = false
            ∧ runMain env w = (Ev.fetchPR :: exTrace w pr ++
                [Ev.provisionCall, Ev.sendEmailCall email (html_content k)], Outcome.exit 0))
        ∨ (send_email_result w.sendResp = true
            ∧ runMain env w = (Ev.fetchPR :: exTrace w pr ++
                [Ev.provisionCall, Ev.sendEmailCall email (html_content k),
                 Ev.postCommentCall (comment_body email)], Outcome.exit 0)))))) := by
  have hfm := firstMissing_none env h1 h2 h3 h4
  rcases runMain_shape env w with ⟨n, hn, _⟩ | ⟨_, hrest⟩
  · rw [hfm] at hn; cases hn
  rcases hrest with ⟨e, he, _⟩ | ⟨pr', hpr', hrest⟩
  · rw [h5] at he; cases he
  rw [h5] at hpr'
  injection hpr' with hpr2
  subst hpr2
  rcases hrest with ⟨hbad, _⟩ | ⟨nn2, rr2, hnn2, hrr2, hrest⟩
  · rcases hbad with hb | ⟨nn3, _, hb⟩
    · rw [h6] at hb; cases hb
    · rw [h7] at hb; cases hb
  exact hrest

/-!
Claim C1.
-/

/-- C1 (amended): when no text source (PR body, then each comment) yields a
validated address, the run terminates with process exit status 0 — not a
non-zero status, `extract_email` ends in `exit(0)` — and performs no
further side effects: no provisioning call, no email send, and no
confirmation comment. -/
theorem c1_no_email_exits_zero_no_side_effects (env : Environ) (w : World) (pr : PrData)
    (nn : Nat) (rr : List Char)
    (h1 : env.github_token.isSome = true) (h2 : env.github_api_url.isSome = true)
    (h3 : env.provisioning_api_key.isSome = true) (h4 : env.email_api_key.isSome = true)
    (h5 : w.prResp = Except.ok pr)
    (h6 : resolve_pr_number pr = some nn) (h7 : resolve_repo pr = some rr)
    (h8 : exRes w pr = none) :
    (runMain env w).2 = Outcome.exit 0 ∧
    (runMain env w).1.countP isProvEv = 0 ∧
    (runMain env w).1.countP isSendEv = 0 ∧
    (runMain env w).1.countP isPostEv = 0 := by
  rcases runMain_shape_reached env w pr nn rr h1 h2 h3 h4 h5 h6 h7 with
    ⟨_, hrun⟩ | ⟨email, hex, _⟩
  · rw [hrun]
    rcases exTrace_cases w pr with hx | hx <;>
      simp [hx, List.countP_cons, isProvEv, isSendEv, isPostEv]
  · rw [h8] at hex; cases hex

/-- C1 (counterexample to the claim as stated): a concrete run in which no
source yields a validated address terminates with exit status `0`, not a
non-zero status; its full event trace is the PR fetch and the comment
fetch, so no provisioning, email, or comment call occurred. -/
theorem c1_cex_exit_status_is_zero :
    (runMain envOk wNoEmail).2 = Outcome.exit 0 ∧
    (runMain envOk wNoEmail).1 = [Ev.fetchPR, Ev.fetchComments] := by
  constructor <;> rfl

/-- C1 witness: the amended theorem applied to the concrete no-email run. -/
theorem c1_witness :
    (runMain envOk wNoEmail).2 = Outcome.exit 0 ∧
    (runMain envOk wNoEmail).1.countP isProvEv = 0 ∧
    (runMain envOk wNoEmail).1.countP isSendEv = 0 ∧
    (runMain envOk wNoEmail).1.countP isPostEv = 0 :=
  c1_no_email_exits_zero_no_side_effects envOk wNoEmail prNoMail 5 ("o/r".toList)
    rfl rfl rfl rfl rfl rfl rfl rfl

/-!
Claim C2.
-/

/-- C2 (amended): when the provisioning endpoint returns a success HTTP
status but the response body lacks the `key` field, the resulting
`KeyError` aborts the rest of the pipeline — no email-send call and no
comment occur — but it is caught by the top-level `except` of `main`,
which only prints, so the process exits with status 0, not a non-zero
status. -/
theorem c2_missing_key_no_send_but_exit_zero (env : Environ) (w : World) (pr : PrData)
    (nn : Nat) (rr : List Char) (email : List Char)
    (h1 : env.github_token.isSome = true) (h2 : env.github_api_url.isSome = true)
    (h3 : env.provisioning_api_key.isSome = true) (h4 : env.email_api_key.isSome = true)
    (h5 : w.prResp = Except.ok pr)
    (h6 : resolve_pr_number pr = some nn) (h7 : resolve_repo pr = some rr)
    (h8 : exRes w pr = some email)
    (h9 : w.provResp = Except.ok none) :
    (runMain env w).2 = Outcome.exit 0 ∧
    (runMain env w).1.countP isSendEv = 0 ∧
    (runMain env w).1.countP isPostEv = 0 := by
  rcases runMain_shape_reached env w pr nn rr h1 h2 h3 h4 h5 h6 h7 with
    ⟨hex, _⟩ | ⟨email2, hex, hrest⟩
  · rw [h8] at hex; cases hex
  rcases hrest with ⟨msg, _, hrun⟩ | ⟨k, hk, _⟩
  · rw [hrun]
    rcases exTrace_cases w pr with hx | hx <;>
      simp [hx, List.countP_cons, List.countP_append, isProvEv, isSendEv, isPostEv]
  · rw [h9] at hk; simp [provision_api_key] at hk

/-- C2 (counterexample to the claim as stated): a concrete run in which
provisioning succeeds at HTTP level with a body lacking `key` exits with
status 0 (the claim demands a non-zero status); the trace confirms no
email-send call occurred. -/
theorem c2_cex_exit_status_is_zero :
    (runMain envOk wNoKey).2 = Outcome.exit 0 ∧
    (runMain envOk wNoKey).1 = [Ev.fetchPR, Ev.provisionCall] := by
  constructor <;> rfl

/-- C2 witness: the amended theorem applied to the concrete missing-key run. -/
theorem c2_witness :
    (runMain envOk wNoKey).2 = Outcome.exit 0 ∧
    (runMain envOk wNoKey).1.countP isSendEv = 0 ∧
    (runMain envOk wNoKey).1.countP isPostEv = 0 :=
  c2_missing_key_no_send_but_exit_zero envOk wNoKey prDev 5 ("o/r".toList)
    ("dev@example.com".toList) rfl rfl rfl rfl rfl rfl rfl rfl rfl

/-!
Claim C3.
-/

/-- C3 (amended): a confirmation comment is posted only when the delivery
outcome is `Sent` (`send_email` returned `True`, i.e. provider status
below 300).  On HTTP 202 the orchestrator posts exactly one confirmation
comment whose body contains the target address and the process exits with
status 0; on HTTP 429 it posts zero comments — but the process still exits
with status 0, not a failure code, because `send_email` merely returns
`False` and `main` returns normally. -/
theorem c3_comment_iff_sent :
    (∀ (env : Environ) (w : World) (b : List Char),
        Ev.postCommentCall b ∈ (runMain env w).1 → send_email_result w.sendResp = true)
    ∧ (∀ (env : Environ) (w : World) (pr : PrData) (nn : Nat) (rr email k : List Char),
        env.github_token.isSome = true → env.github_api_url.isSome = true →
        env.provisioning_api_key.isSome = true → env.email_api_key.isSome = true →
        w.prResp = Except.ok pr →
        resolve_pr_number pr = some nn → resolve_repo pr = some rr →
        exRes w pr = some email → w.provResp = Except.ok (some k) →
        w.sendResp = SendOutcome.ok 202 →
        (runMain env w).1.countP isPostEv = 1 ∧
        Ev.postCommentCall (comment_body email) ∈ (runMain env w).1 ∧
        email <:+: comment_body email ∧
        (runMain env w).2 = Outcome.exit 0)
    ∧ (∀ (env : Environ) (w : World) (pr : PrData) (nn : Nat) (rr email k mb : List Char),
        env.github_token.isSome = true → env.github_api_url.isSome = true →
        env.provisioning_api_key.isSome = true → env.email_api_key.isSome = true →
        w.prResp = Except.ok pr →
        resolve_pr_number pr = some nn → resolve_repo pr = some rr →
        exRes w pr = some email → w.provResp = Except.ok (some k) →
        w.sendResp = SendOutcome.httpError 429 mb →
        (runMain env w).1.countP isPostEv = 0 ∧
        (runMain env w).2 = Outcome.exit 0) := by
  refine ⟨?_, ?_, ?_⟩
  · intro env w b hmem
    rcases runMain_shape env w with ⟨n, _, hrun⟩ | ⟨_, hrest⟩
    · rw [hrun] at hmem; simp at hmem
    rcases hrest with ⟨e, _, hrun⟩ | ⟨pr, _, hrest⟩
    · rw [hrun] at hmem; simp at hmem
    rcases hrest with ⟨_, hrun⟩ | ⟨nn, rr, _, _, hrest⟩
    · rw [hrun] at hmem; simp at hmem
    rcases hrest with ⟨_, hrun⟩ | ⟨email, _, hrest⟩
    · rw [hrun] at hmem
      rcases exTrace_cases w pr with hx | hx <;> rw [hx] at hmem <;> simp at hmem
    rcases hrest with ⟨msg, _, hrun⟩ | ⟨k, _, hrest⟩
    · rw [hrun] at hmem
      rcases exTrace_cases w pr with hx | hx <;> rw [hx] at hmem <;> simp at hmem
    rcases hrest with ⟨hsendF, hrun⟩ | ⟨hsendT, hrun⟩
    · rw [hrun] at hmem
      rcases exTrace_cases w pr with hx | hx <;> rw [hx] at hmem <;> simp at hmem
    · exact hsendT
  · intro env w pr nn rr email k h1 h2 h3 h4 h5 h6 h7 h8 h9 h10
    rcases runMain_shape_reached env w pr nn rr h1 h2 h3 h4 h5 h6 h7 with
      ⟨hex, _⟩ | ⟨email2, hex, hrest⟩
    · rw [h8] at hex; cases hex
    rw [h8] at hex
    injection hex with hex2
    subst hex2
    rcases hrest with ⟨msg, hmsg, _⟩ | ⟨k2, hk2, hrest⟩
    · rw [h9] at hmsg; simp [provision_api_key] at hmsg
    rw [h9] at hk2
    simp only [provision_api_key] at hk2
    injection hk2 with hk3
    subst hk3
    rcases hrest with ⟨hsend, _⟩ | ⟨_, hrun⟩
    · rw [h10] at hsend; simp [send_email_result] at hsend
    rw [hrun]
    refine ⟨?_, ?_, ⟨_, _, rfl⟩, rfl⟩
    · rcases exTrace_cases w pr with hx | hx <;>
        simp [hx, List.countP_cons, List.countP_append, isPostEv]
    · rcases exTrace_cases w pr with hx | hx <;> simp [hx]
  · intro env w pr nn rr email k mb h1 h2 h3 h4 h5 h6 h7 h8 h9 h10
    rcases runMain_shape_reached env w pr nn rr h1 h2 h3 h4 h5 h6 h7 with
      ⟨hex, _⟩ | ⟨email2, hex, hrest⟩
    · rw [h8] at hex; cases hex
    rcases hrest with ⟨msg, hmsg, _⟩ | ⟨k2, hk2, hrest⟩
    · rw [h9] at hmsg; simp [provision_api_key] at hmsg
    rcases hrest with ⟨_, hrun⟩ | ⟨hsend, _⟩
    · rw [hrun]
      refine ⟨?_, rfl⟩
      rcases exTrace_cases w pr with hx | hx <;>
        simp [hx, List.countP_cons, List.countP_append, isPostEv]
    · rw [h10] at hsend; simp [send_email_result] at hsend

/-- C3 (counterexample to the claim as stated): on a concrete run whose
delivery attempt is rejected with HTTP 429, zero comments are posted but
the process exits with status 0 — the claim demands a non-zero failure
code. -/
theorem c3_cex_rejected_exit_status_is_zero :
    (runMain envOk wRate).2 = Outcome.exit 0 ∧
    (runMain envOk wRate).1.countP isPostEv = 0 := by
  constructor <;> rfl

/-- C3 witness: both directions of the amended theorem at concrete runs
(HTTP 202 and HTTP 429). -/
theorem c3_witness :
    send_email_result wHappy.sendResp = true ∧
    ((runMain envOk wHappy).1.countP isPostEv = 1 ∧
      Ev.postCommentCall (comment_body "dev@example.com".toList) ∈ (runMain envOk wHappy).1 ∧
      ("dev@example.com".toList) <:+: comment_body ("dev@example.com".toList) ∧
      (runMain envOk wHappy).2 = Outcome.exit 0) ∧
    ((runMain envOk wRate).1.countP isPostEv = 0 ∧
      (runMain envOk wRate).2 = Outcome.exit 0) :=
  ⟨c3_comment_iff_sent.1 envOk wHappy
      (comment_body "dev@example.com".toList) (by decide),
   c3_comment_iff_sent.2.1 envOk wHappy prDev 5 ("o/r".toList) ("dev@example.com".toList)
      ("sk-test-123".toList) rfl rfl rfl rfl rfl rfl rfl rfl rfl rfl,
   c3_comment_iff_sent.2.2 envOk wRate prDev 5 ("o/r".toList) ("dev@example.com".toList)
      ("sk-test-123".toList) ("rate limit".toList) rfl rfl rfl rfl rfl rfl rfl rfl rfl rfl⟩

/-!
Claim C6.
-/

/-- C6 (amended): no external call is ever retried — each of the five
external-call kinds occurs at most once in any run — but not every
external-call failure is terminal: a transport failure while fetching the
pull-request comments is caught inside `fetch_pr_comments` and resolved
locally as an empty comment list, after which the search simply continues. -/
theorem c6_no_retries_comment_fetch_resolved_locally :
    (∀ m, fetch_pr_comments (Except.error m) = [])
    ∧ (∀ (env : Environ) (w : World),
        (runMain env w).1.countP isFetchPREv ≤ 1 ∧
        (runMain env w).1.countP isFetchCommentsEv ≤ 1 ∧
        (runMain env w).1.countP isProvEv ≤ 1 ∧
        (runMain env w).1.countP isSendEv ≤ 1 ∧
        (runMain env w).1.countP isPostEv ≤ 1) := by
  refine ⟨fun m => rfl, ?_⟩
  intro env w
  rcases runMain_shape env w with ⟨n, _, hrun⟩ | ⟨_, hrest⟩
  · rw [hrun]; simp
  rcases hrest with ⟨e, _, hrun⟩ | ⟨pr, _, hrest⟩
  · rw [hrun]
    simp [List.countP_cons, isFetchPREv, isFetchCommentsEv, isProvEv, isSendEv, isPostEv]
  rcases hrest with ⟨_, hrun⟩ | ⟨nn, rr, _, _, hrest⟩
  · rw [hrun]
    simp [List.countP_cons, isFetchPREv, isFetchCommentsEv, isProvEv, isSendEv, isPostEv]
  rcases hrest with ⟨_, hrun⟩ | ⟨email, _, hrest⟩
  · rw [hrun]
    rcases exTrace_cases w pr with hx | hx <;>
      simp [hx, List.countP_cons, List.countP_append,
        isFetchPREv, isFetchCommentsEv, isProvEv, isSendEv, isPostEv]
  rcases hrest with ⟨msg, _, hrun⟩ | ⟨k, _, hrest⟩
  · rw [hrun]
    rcases exTrace_cases w pr with hx | hx <;>
      simp [hx, List.countP_cons, List.countP_append,
        isFetchPREv, isFetchCommentsEv, isProvEv, isSendEv, isPostEv]
  rcases hrest with ⟨_, hrun⟩ | ⟨_, hrun⟩ <;>
    rw [hrun] <;>
    rcases exTrace_cases w pr with hx | hx <;>
      simp [hx, List.countP_cons, List.countP_append,
        isFetchPREv, isFetchCommentsEv, isProvEv, isSendEv, isPostEv]

/-- C6 (counterexample to the claim as stated): a concrete transport
failure while fetching the comments is not terminal-as-a-failure: it is
resolved locally to an empty comment list, and the surrounding run ends
through the normal no-email path with exit status 0 rather than by
propagating the failure. -/
theorem c6_cex_comment_fetch_failure_not_terminal :
    fetch_pr_comments (Except.error "boom".toList) = [] ∧
    (runMain envOk wCfail).2 = Outcome.exit 0 ∧
    (runMain envOk wCfail).1 = [Ev.fetchPR, Ev.fetchComments] := by
  refine ⟨rfl, rfl, rfl⟩

/-!
Claim C7.
-/

/-- C7 (amended): when a required environment variable is absent the run
fails before any network call is made — the event trace is empty and the
process dies on an uncaught `KeyError` — but the failure names only the
first missing variable in the order `main` reads them, not an aggregated
list of all missing names. -/
theorem c7_missing_env_fails_before_network_first_only
    (env : Environ) (w : World) (n : List Char)
    (h : firstMissing env = some n) :
    runMain env w = ([], Outcome.uncaught n) := by
  rcases runMain_shape env w with ⟨n2, hn2, hrun⟩ | ⟨hnone, _⟩
  · rw [h] at hn2
    injection hn2 with hn3
    subst hn3
    exact hrun
  · rw [h] at hnone; cases hnone

/-- C7 (counterexample to the claim as stated): with both `GITHUB_TOKEN`
and `PROVISIONING_API_KEY` absent, the failure report names only
`GITHUB_TOKEN` — not an aggregated list of all missing variables. -/
theorem c7_cex_only_first_missing_named :
    envMiss.github_token = none ∧
    envMiss.provisioning_api_key = none ∧
    runMain envMiss wHappy = ([], Outcome.uncaught keyGT) ∧
    keyGT ≠ keyPROV := by
  refine ⟨rfl, rfl, rfl, by decide⟩

/-- C7 witness: the amended theorem at the concrete deficient environment. -/
theorem c7_witness : runMain envMiss wHappy = ([], Outcome.uncaught keyGT) :=
  c7_missing_env_fails_before_network_first_only envMiss wHappy keyGT rfl

/-!
Claim C8.
-/

/-- C8 (confirmed): in every run the provisioning call occurs at most
once, and it occurs only when the email search has already produced a
validated address for the fetched pull-request snapshot. -/
theorem c8_provision_at_most_once_after_validated_email
    (env : Environ) (w : World) :
    (runMain env w).1.countP isProvEv ≤ 1 ∧
    (Ev.provisionCall ∈ (runMain env w).1 →
      ∃ pr email, w.prResp = Except.ok pr ∧ exRes w pr = some email) := by
  rcases runMain_shape env w with ⟨n, _, hrun⟩ | ⟨_, hrest⟩
  · rw [hrun]; simp
  rcases hrest with ⟨e, _, hrun⟩ | ⟨pr, hpr, hrest⟩
  · rw [hrun]
    constructor
    · simp [List.countP_cons, isProvEv]
    · intro hmem; simp at hmem
  rcases hrest with ⟨_, hrun⟩ | ⟨nn, rr, _, _, hrest⟩
  · rw [hrun]
    constructor
    · simp [List.countP_cons, isProvEv]
    · intro hmem; simp at hmem
  rcases hrest with ⟨_, hrun⟩ | ⟨email, hex, hrest⟩
  · rw [hrun]
    constructor
    · rcases exTrace_cases w pr with hx | hx <;> simp [hx, List.countP_cons, isProvEv]
    · intro hmem
      rcases exTrace_cases w pr with hx | hx <;> rw [hx] at hmem <;> simp at hmem
  have hwit : ∃ pr2 email2, w.prResp = Except.ok pr2 ∧ exRes w pr2 = some email2 :=
    ⟨pr, email, hpr, hex⟩
  rcases hrest with ⟨msg, _, hrun⟩ | ⟨k, _, hrest⟩
  · rw [hrun]
    refine ⟨?_, fun _ => hwit⟩
    rcases exTrace_cases w pr with hx | hx <;>
      simp [hx, List.countP_cons, List.countP_append, isProvEv]
  rcases hrest with ⟨_, hrun⟩ | ⟨_, hrun⟩ <;> rw [hrun] <;>
    refine ⟨?_, fun _ => hwit⟩ <;>
    rcases exTrace_cases w pr with hx | hx <;>
      simp [hx, List.countP_cons, List.countP_append, isProvEv]

/-- C8 witness: at the concrete happy-path run the provisioning call is in
the trace, so the theorem yields the validated address that preceded it. -/
theorem c8_witness :
    (runMain envOk wHappy).1.countP isProvEv ≤ 1 ∧
    (∃ pr email, wHappy.prResp = Except.ok pr ∧ exRes wHappy pr = some email) :=
  ⟨(c8_provision_at_most_once_after_validated_email envOk wHappy).1,
   (c8_provision_at_most_once_after_validated_email envOk wHappy).2 (by decide)⟩

/-!
Claim C9.
-/

/-- C9 (confirmed): for every candidate, the validator either returns the
normalized address the library produced, or — when the library rejects the
candidate with an `EmailNotValidError` — returns absence after logging a
line that contains the rejection reason; the total function never raises
to its caller (both catch branches of `validate_email_address` return). -/
theorem c9_validator_returns_or_logs_reason
    (lib : Except (List Char) (List Char)) :
    (∃ v, lib = Except.ok v ∧ validate_email_address lib =
      (some v, ["✅ Email validation passed: ".toList ++ v]))
    ∨ (∃ m, lib = Except.error m ∧ (validate_email_address lib).1 = none ∧
        (validate_email_address lib).2 = ["❌ Email validation failed: ".toList ++ m] ∧
        m <:+: ("❌ Email validation failed: ".toList ++ m)) := by
  cases lib with
  | ok v => exact Or.inl ⟨v, rfl, rfl⟩
  | error m =>
    exact Or.inr ⟨m, rfl, rfl, rfl, ⟨"❌ Email validation failed: ".toList, [], by simp⟩⟩

/-!
Claim C10.
-/

/-- Projections of a `provResp` structure update reduce to the base world. -/
theorem wVf_update_prov (w : World) (x : Except (List Char) (Option (List Char))) :
    wVf { w with provResp := x } = wVf w := rfl

/-- Whether the provisioning response carries a `key` on a success status:
exactly the condition under which `provision_api_key` returns normally. -/
def provOk (w : World) : Bool :=
  match w.provResp with
  | Except.ok (some _) => true
  | _ => false

/-- The flag `provOk` is false when `provision_api_key` raises. -/
theorem provOk_of_error (w : World) (m : List Char)
    (h : provision_api_key w.provResp = Except.error m) : provOk w = false := by
  cases hp : w.provResp with
  | error e => simp [provOk, hp]
  | ok o =>
    cases o with
    | none => simp [provOk, hp]
    | some kk => rw [hp] at h; simp [provision_api_key] at h

/-- The flag `provOk` is true when `provision_api_key` returns a key. -/
theorem provOk_of_ok (w : World) (k : List Char)
    (h : provision_api_key w.provResp = Except.ok k) : provOk w = true := by
  cases hp : w.provResp with
  | error e => rw [hp] at h; simp [provision_api_key] at h
  | ok o =>
    cases o with
    | none => rw [hp] at h; simp [provision_api_key] at h
    | some kk => simp [provOk, hp]

/-- The confirmation-comment bodies a run will post, computed from the run
conditions alone.  Note that the provisioned credential value is never
read: only the constructor shape of the provisioning response matters. -/
def postSummary (env : Environ) (w : World) : List (List Char) :=
  match firstMissing env with
  | some _ => []
  | none =>
  match w.prResp with
  | Except.error _ => []
  | Except.ok pr =>
  match resolve_pr_number pr with
  | none => []
  | some _ =>
  match resolve_repo pr with
  | none => []
  | some _ =>
  match exRes w pr with
  | none => []
  | some email =>
  if provOk w && send_email_result w.sendResp then [comment_body email] else []

/-- The comment bodies of every run are exactly `postSummary`. -/
theorem postBodies_eq_postSummary (env : Environ) (w : World) :
    postBodies (runMain env w).1 = postSummary env w := by
  rcases runMain_shape env w with ⟨n, hn, hrun⟩ | ⟨hnone, hrest⟩
  · rw [hrun]; simp [postBodies, postSummary, hn]
  rcases hrest with ⟨e, he, hrun⟩ | ⟨pr, hpr, hrest⟩
  · rw [hrun]; simp [postBodies, postSummary, hnone, he]
  rcases hrest with ⟨hbad, hrun⟩ | ⟨nn, rr, hnn, hrr, hrest⟩
  · rw [hrun]
    rcases hbad with hb | ⟨nn2, hn2, hb⟩
    · simp [postBodies, postSummary, hnone, hpr, hb]
    · simp [postBodies, postSummary, hnone, hpr, hn2, hb]
  rcases hrest with ⟨hex, hrun⟩ | ⟨email, hex, hrest⟩
  · rw [hrun]
    rcases exTrace_cases w pr with hx | hx <;>
      simp [postBodies, postSummary, hnone, hpr, hnn, hrr, hex, hx]
  rcases hrest with ⟨msg, hmsg, hrun⟩ | ⟨k, hk, hrest⟩
  · rw [hrun]
    have hpo := provOk_of_error w msg hmsg
    rcases exTrace_cases w pr with hx | hx <;>
      simp [postBodies, postSummary, hnone, hpr, hnn, hrr, hex, hx, hpo]
  have hpo := provOk_of_ok w k hk
  rcases hrest with ⟨hsend, hrun⟩ | ⟨hsend, hrun⟩ <;> rw [hrun] <;>
    rcases exTrace_cases w pr with hx | hx <;>
      simp [postBodies, postSummary, hnone, hpr, hnn, hrr, hex, hx, hpo, hsend]

/-- C10 (confirmed): every confirmation comment posted in any run has the
fixed body built from the validated address alone — so it contains that
address — and every email-send call carries the fixed HTML template with
the provisioned credential spliced in, so the credential occurs in the
email HTML; the comment bodies of a run are invariant under changing the
provisioned credential, hence the credential never flows into the
confirmation comment. -/
theorem c10_credential_only_in_email_html :
    (∀ (env : Environ) (w : World) (b : List Char),
        Ev.postCommentCall b ∈ (runMain env w).1 →
        ∃ e, b = comment_body e ∧ e <:+: b)
    ∧ (∀ (env : Environ) (w : World) (a h : List Char),
        Ev.sendEmailCall a h ∈ (runMain env w).1 →
        ∃ k, provision_api_key w.provResp = Except.ok k ∧ h = html_content k ∧ k <:+: h)
    ∧ (∀ (env : Environ) (w : World) (k k2 : List Char),
        postBodies (runMain env { w with provResp := Except.ok (some k) }).1 =
        postBodies (runMain env { w with provResp := Except.ok (some k2) }).1) := by
  refine ⟨?_, ?_, ?_⟩
  · intro env w b hmem
    rcases runMain_shape env w with ⟨n, _, hrun⟩ | ⟨_, hrest⟩
    · rw [hrun] at hmem; simp at hmem
    rcases hrest with ⟨e, _, hrun⟩ | ⟨pr, _, hrest⟩
    · rw [hrun] at hmem; simp at hmem
    rcases hrest with ⟨_, hrun⟩ | ⟨nn, rr, _, _, hrest⟩
    · rw [hrun] at hmem; simp at hmem
    rcases hrest with ⟨_, hrun⟩ | ⟨email, _, hrest⟩
    · rw [hrun] at hmem
      rcases exTrace_cases w pr with hx | hx <;> rw [hx] at hmem <;> simp at hmem
    rcases hrest with ⟨msg, _, hrun⟩ | ⟨k, _, hrest⟩
    · rw [hrun] at hmem
      rcases exTrace_cases w pr with hx | hx <;> rw [hx] at hmem <;> simp at hmem
    rcases hrest with ⟨_, hrun⟩ | ⟨_, hrun⟩ <;> rw [hrun] at hmem <;>
      rcases exTrace_cases w pr with hx | hx <;> rw [hx] at hmem <;> simp at hmem
    all_goals
      subst hmem
      exact ⟨email, rfl, ⟨_, _, rfl⟩⟩
  · intro env w a h hmem
    rcases runMain_shape env w with ⟨n, _, hrun⟩ | ⟨_, hrest⟩
    · rw [hrun] at hmem; simp at hmem
    rcases hrest with ⟨e, _, hrun⟩ | ⟨pr, _, hrest⟩
    · rw [hrun] at hmem; simp at hmem
    rcases hrest with ⟨_, hrun⟩ | ⟨nn, rr, _, _, hrest⟩
    · rw [hrun] at hmem; simp at hmem
    rcases hrest with ⟨_, hrun⟩ | ⟨email, _, hrest⟩
    · rw [hrun] at hmem
      rcases exTrace_cases w pr with hx | hx <;> rw [hx] at hmem <;> simp at hmem
    rcases hrest with ⟨msg, _, hrun⟩ | ⟨k, hk, hrest⟩
    · rw [hrun] at hmem
      rcases exTrace_cases w pr with hx | hx <;> rw [hx] at hmem <;> simp at hmem
    rcases hrest with ⟨_, hrun⟩ | ⟨_, hrun⟩ <;> rw [hrun] at hmem <;>
      rcases exTrace_cases w pr with hx | hx <;> rw [hx] at hmem <;> simp at hmem
    all_goals
      obtain ⟨hmem1, hmem2⟩ := hmem
      subst hmem2
      exact ⟨k, hk, rfl, ⟨_, _, rfl⟩⟩
  · intro env w k k2
    rw [postBodies_eq_postSummary, postBodies_eq_postSummary]
    rfl

set_option maxRecDepth 4000 in
/-- C10 witness: the three parts of the theorem at concrete runs. -/
theorem c10_witness :
    (∃ e, comment_body "dev@example.com".toList = comment_body e ∧
      e <:+: comment_body "dev@example.com".toList) ∧
    (∃ k, provision_api_key wHappy.provResp = Except.ok k ∧
      html_content "sk-test-123".toList = html_content k ∧
      k <:+: html_content "sk-test-123".toList) ∧
    postBodies (runMain envOk { wHappy with provResp := Except.ok (some "keyA".toList) }).1 =
      postBodies (runMain envOk { wHappy with provResp := Except.ok (some "keyB".toList) }).1 :=
  ⟨c10_credential_only_in_email_html.1 envOk wHappy
      (comment_body "dev@example.com".toList) (by decide),
   c10_credential_only_in_email_html.2.1 envOk wHappy
      ("dev@example.com".toList) (html_content "sk-test-123".toList) (by decide),
   c10_credential_only_in_email_html.2.2 envOk wHappy ("keyA".toList) ("keyB".toList)⟩

/-!
Claim C5.
-/

/-- C5 (confirmed): when the candidate extracted from the PR body fails
validation, the locator neither aborts nor rescans the body; it fetches
the comments and continues with them in order, so its result is exactly
the result of the comment scan — and a later comment holding a valid candidate
(after comments that yield none) produces the validated address of
that comment. -/
theorem c5_invalid_body_continues_to_comments
    (vf : List Char → Option (List Char)) (body : List Char)
    (cs : List (Option (List Char))) (cand : List Char)
    (h1 : extract_email_from_text body = some cand)
    (h2 : vf cand = none) :
    (extract_email vf body (Except.ok cs)).1 = [Ev.fetchComments] ∧
    (extract_email vf body (Except.ok cs)).2 = scanComments vf cs ∧
    (∀ (cs1 : List (Option (List Char))) (c0 : Option (List Char))
        (cs2 : List (Option (List Char))) (cand2 v : List Char),
      scanComments vf cs1 = none →
      extract_email_from_text (c0.getD []) = some cand2 →
      vf cand2 = some v →
      scanComments vf (cs1 ++ c0 :: cs2) = some v) := by
  refine ⟨?_, ?_, ?_⟩
  · simp [extract_email, h1, h2]
  · simp [extract_email, h1, h2, fetch_pr_comments]
  · intro cs1
    induction cs1 with
    | nil =>
      intro c0 cs2 cand2 v _ hc0 hv
      simp [scanComments, hc0, hv]
    | cons c t ih =>
      intro c0 cs2 cand2 v hnone hc0 hv
      simp only [List.cons_append]
      simp only [scanComments] at hnone ⊢
      cases he : extract_email_from_text (c.getD []) with
      | none =>
        simp only [he] at hnone ⊢
        exact ih c0 cs2 cand2 v hnone hc0 hv
      | some cd =>
        simp only [he] at hnone ⊢
        cases hv2 : vf cd with
        | none =>
          simp only [hv2] at hnone ⊢
          exact ih c0 cs2 cand2 v hnone hc0 hv
        | some v2 => simp only [hv2] at hnone; cases hnone

/-- Validator fixture for the C5 witness: accepts exactly `good@ex.co`. -/
def vfFive : List Char → Option (List Char) :=
  fun c => if c = "good@ex.co".toList then some c else none

/-- Comment fixtures for the C5 witness. -/
def csFive : List (Option (List Char)) :=
  [some "hi there".toList, some "Email: good@ex.co".toList]

/-- C5 witness: a body whose labeled candidate the validator rejects,
followed by a chatter comment and a comment carrying a valid address:
the run returns the validated address found in the comment. -/
theorem c5_witness :
    (extract_email vfFive ("**Email**: not.valid@x.yz".toList) (Except.ok csFive)).2 =
      some ("good@ex.co".toList) := by
  have h := c5_invalid_body_continues_to_comments vfFive ("**Email**: not.valid@x.yz".toList)
    csFive ("not.valid@x.yz".toList) (by rfl) (by rfl)
  rw [h.2.1]
  rfl

/-!
Claim C4.
-/

/-- The address `a@b.co` as a character list. -/
def abco : List Char := ['a', '@', 'b', '.', 'c', 'o']

/-- The labeled field `**Email**: a@b.co` as a character list. -/
def labABCO : List Char := pat1Lit ++ (' ' :: abco)

/-- The address `x@y.zz` as a character list. -/
def xyzz : List Char := ['x', '@', 'y', '.', 'z', 'z']

/-- A `takeWhile` stops immediately when the head fails the predicate. -/
theorem takeWhile_head_false {p : Char → Bool} {post : List Char}
    (h : ∀ c, post.head? = some c → p c = false) :
    post.takeWhile p = [] := by
  cases post with
  | nil => rfl
  | cons c t =>
    have hc := h c rfl
    simp [List.takeWhile_cons, hc]

/-- A `dropWhile` keeps the whole list when the head fails the predicate. -/
theorem dropWhile_head_false {p : Char → Bool} {post : List Char}
    (h : ∀ c, post.head? = some c → p c = false) :
    post.dropWhile p = post := by
  cases post with
  | nil => rfl
  | cons c t =>
    have hc := h c rfl
    simp [List.dropWhile_cons, hc]

/-- The address pattern anchored at `a@b.co ++ post` matches exactly
`a@b.co` whenever `post` does not begin with a domain character (so the
greedy domain run cannot extend past the field). -/
theorem matchAddr_abco (post : List Char)
    (h : ∀ c, post.head? = some c → isDomChar c = false) :
    matchAddr false (abco ++ post) = some (abco, post) := by
  have ht : post.takeWhile isDomChar = [] := takeWhile_head_false h
  have hd : post.dropWhile isDomChar = post := dropWhile_head_false h
  have h3 : ('b' :: '.' :: 'c' :: 'o' :: post).takeWhile isDomChar
      = ['b', '.', 'c', 'o'] := by
    show 'b' :: '.' :: 'c' :: 'o' :: post.takeWhile isDomChar = _
    rw [ht]
  have h4 : ('b' :: '.' :: 'c' :: 'o' :: post).dropWhile isDomChar = post := by
    show post.dropWhile isDomChar = post
    exact hd
  have hTail : matchAddrTail false ['a'] ('b' :: '.' :: 'c' :: 'o' :: post)
      = some (abco, post) := by
    unfold matchAddrTail
    rw [h3, h4]
    rfl
  show matchAddrTail false ['a'] ('b' :: '.' :: 'c' :: 'o' :: post) = some (abco, post)
  exact hTail

/-- Pattern 1 anchored at the labeled field captures exactly `a@b.co`. -/
theorem anch1_lab (post : List Char)
    (h : ∀ c, post.head? = some c → isDomChar c = false) :
    anch1 (labABCO ++ post) = some abco := by
  show (matchAddr false (abco ++ post)).map Prod.fst = some abco
  rw [matchAddr_abco post h]
  rfl

/-- Unfolding step of `search1` on a cons cell. -/
theorem search1_cons (c : Char) (t : List Char) :
    search1 (c :: t) =
      match anch1 (c :: t) with
      | some g => some g
      | none => search1 t := rfl

/-- Pattern 1 cannot be anchored at a character other than `'*'`. -/
theorem anch1_nonstar (c : Char) (t : List Char) (hc : c ≠ '*') :
    anch1 (c :: t) = none := by
  have hb : (c == '*') = false := beq_eq_false_iff_ne.mpr hc
  unfold anch1
  rw [show stripLit pat1Lit (c :: t) =
        (if (c == '*') = true then
          stripLit ('*' :: 'E' :: 'm' :: 'a' :: 'i' :: 'l' :: '*' :: '*' :: ':' :: []) t
        else none) from rfl]
  rw [hb]
  simp

/-- The search for pattern 1 over any text consisting of a star-free part,
the labeled field and a cleanly delimited tail finds exactly `a@b.co`. -/
theorem search1_lab (pre post : List Char) (hpre : ('*' : Char) ∉ pre)
    (h : ∀ c, post.head? = some c → isDomChar c = false) :
    search1 (pre ++ (labABCO ++ post)) = some abco := by
  induction pre with
  | nil =>
    simp only [List.nil_append]
    rw [show labABCO ++ post =
          '*' :: (('*' :: 'E' :: 'm' :: 'a' :: 'i' :: 'l' :: '*' :: '*' :: ':' :: ' ' :: abco)
            ++ post) from rfl]
    rw [search1_cons]
    rw [show ('*' :: (('*' :: 'E' :: 'm' :: 'a' :: 'i' :: 'l' :: '*' :: '*' :: ':' :: ' ' :: abco)
          ++ post) : List Char) = labABCO ++ post from rfl]
    rw [anch1_lab post h]
  | cons c pre ih =>
    have hc : c ≠ '*' := by
      intro hcc
      exact hpre (hcc ▸ List.mem_cons_self c pre)
    have hpre2 : ('*' : Char) ∉ pre := fun hm => hpre (List.mem_cons_of_mem c hm)
    rw [List.cons_append, search1_cons, anch1_nonstar c _ hc]
    exact ih hpre2

/-- C4 (amended): the three patterns are applied in fixed priority order
with the first match winning — whenever pattern 1 matches anywhere its
leftmost capture is the result and the looser patterns are never
consulted; pattern 2 is used only when pattern 1 fails, and the bare
address pattern 3 only when both fail.  In particular any text consisting
of a star-free part, a labeled `**Email**: a@b.co` field, and a tail not
starting with an address character extracts exactly `a@b.co` (the
star-free and delimiter conditions are needed: `re.search` returns the
leftmost pattern-1 match and its greedy domain run can extend into the
tail, which is what the counterexample exploits). -/
theorem c4_pattern_priority :
    (∀ pre post : List Char, ('*' : Char) ∉ pre →
      (∀ c, post.head? = some c → isDomChar c = false) →
      extract_email_from_text (pre ++ (labABCO ++ post)) = some abco)
    ∧ (∀ t g, search1 t = some g → extract_email_from_text t = some g)
    ∧ (∀ t g, search1 t = none → search2 t = some g → extract_email_from_text t = some g)
    ∧ (∀ t, search1 t = none → search2 t = none →
        extract_email_from_text t = search3 t) := by
  refine ⟨?_, ?_, ?_, ?_⟩
  · intro pre post hpre h
    unfold extract_email_from_text
    rw [search1_lab pre post hpre h]
  · intro t g h
    unfold extract_email_from_text
    rw [h]
  · intro t g h1 h2
    unfold extract_email_from_text
    rw [h1, h2]
  · intro t h1 h2
    unfold extract_email_from_text
    rw [h1, h2]

/-- C4 (counterexample to the claim as stated): this text contains the
labeled field `**Email**: a@b.co` (as the final infix), yet the extractor
returns `x@y.zz`, the capture of the leftmost pattern-1 match — so "for
every text containing a labeled `**Email**: a@b.co` field it extracts
exactly `a@b.co`" is false. -/
theorem c4_cex_leftmost_field_wins :
    extract_email_from_text (("**Email**: x@y.zz ".toList) ++ labABCO) = some xyzz ∧
    labABCO <:+: (("**Email**: x@y.zz ".toList) ++ labABCO) ∧
    xyzz ≠ abco := by
  refine ⟨rfl, ⟨"**Email**: x@y.zz ".toList, [], by simp⟩, by decide⟩

/-- C4 witness: the amended theorem at a concrete star-free prefix and a
cleanly delimited tail. -/
theorem c4_witness :
    extract_email_from_text (("Hi! ".toList) ++ (labABCO ++ ('\n' :: 'T' :: []))) =
      some abco :=
  c4_pattern_priority.1 ("Hi! ".toList) ('\n' :: 'T' :: []) (by decide)
    (by intro c hc
        rw [show (('\n' :: 'T' :: [] : List Char).head?) = some '\n' from rfl] at hc
        cases hc
        rfl)
